import Mathlib

set_option maxHeartbeats 1000000

namespace TritonHttp

/-! Shallow embedding of the tritonhttp package (src/pkg/tritonhttp/request.go
and src/pkg/tritonhttp/response.go).  Machine behaviour that Go leaves to the
runtime (index-out-of-range panics) is modelled explicitly via `Option` or a
distinguished constructor. -/

/-- Transport-level errors surfaced by reads: a read-deadline expiry (a Go
`net.Error` whose `Timeout()` is true), end of stream (`io.EOF`), or any other
I/O error. -/
inductive TErr
  | timeout
  | eof
  | other
deriving DecidableEq, Repr

/-- Modelled from the spec: the Line Reader (`ReadLine`, spec section 4.1) is not
under src/; each call on it is modelled by its observable outcome, the
returned line (trailing CRLF already stripped, `""` when no line content was
obtained) paired with the propagated transport error, if any.  A connection's
successive `ReadLine` outcomes form a `List LineRes`. -/
structure LineRes where
  line : String
  err : Option TErr
deriving DecidableEq, Repr

/-- `Request` from request.go. -/
structure Request where
  method : String
  url : String
  proto : String
  header : List (String × String)
  host : String
  close : Bool
deriving DecidableEq, Repr

/-- Splits a character list at every occurrence of `sep`
(Go `strings.Split` restricted to a one-character separator). -/
def splitCh (sep : Char) : List Char → List (List Char)
  | [] => [[]]
  | c :: rest =>
    if c = sep then [] :: splitCh sep rest
    else
      match splitCh sep rest with
      | [] => [[c]]
      | g :: gs => (c :: g) :: gs

def strSplit (sep : Char) (s : String) : List String :=
  (splitCh sep s.data).map String.mk

/-- Joins with a one-character separator. -/
def joinSep (sep : Char) : List String → String
  | [] => ""
  | [x] => x
  | x :: y :: xs => x ++ String.mk [sep] ++ joinSep sep (y :: xs)

/-- Go `strings.SplitN(s, sep, n)` for `n ≥ 1` and a one-character separator:
at most `n` fields, the last one holding the unsplit remainder. -/
def goSplitN (sep : Char) (s : String) (n : Nat) : List String :=
  let parts := strSplit sep s
  if parts.length ≤ n then parts
  else parts.take (n - 1) ++ [joinSep sep (parts.drop (n - 1))]

/-- The distinct malformed-request failures of request.go. -/
inductive MalErr
  | badStartLine
  | badMethod
  | badURL
  | badProto
  | badHeader
  | badKey
  | missingHost
deriving DecidableEq, Repr

/-- `parseStartLine` from request.go: `strings.SplitN(line, " ", 3)` must give
exactly three fields. -/
def parseStartLine (line : String) : Option (String × String × String) :=
  match goSplitN ' ' line 3 with
  | [a, b, c] => some (a, b, c)
  | _ => none

/-- `validKey` from request.go. -/
def validKey (key : String) : Bool :=
  !key.data.isEmpty &&
    key.data.all fun r =>
      ('a' ≤ r && r ≤ 'z') || ('A' ≤ r && r ≤ 'Z') || ('0' ≤ r && r ≤ '9') || r == '-'

/-- Modelled from the spec: `CanonicalHeaderKey` is not under src/; the spec
(section 4.2 step 6, section 3) asks for a canonical capitalization of the key:
the first letter and every letter following a hyphen uppercased, the other
letters lowercased. -/
def canonWord (w : String) : String :=
  match w.data with
  | [] => ""
  | c :: cs => String.mk (c.toUpper :: cs.map Char.toLower)

def CanonicalHeaderKey (k : String) : String :=
  joinSep '-' ((strSplit '-' k).map canonWord)

/-- `convertValue` from request.go: trim leading spaces and trailing CR/LF. -/
def convertValue (val : String) : String :=
  String.mk
    (((val.data.dropWhile fun c => c == ' ').reverse.dropWhile
      fun c => c == '\r' || c == '\n').reverse)

/-- `parseHeader` from request.go. -/
def parseHeader (header : String) : Except MalErr (String × String) :=
  match goSplitN ':' header 2 with
  | [k, v] =>
    if validKey k then .ok (CanonicalHeaderKey k, convertValue v)
    else .error .badKey
  | _ => .error .badHeader

def validMethod (m : String) : Bool := m == "GET"

def responseProto : String := "HTTP/1.1"

def validProto (p : String) : Bool := p == responseProto

/-- `validURL` from request.go indexes `URL[0]` unconditionally; on the empty
string this is a runtime index-out-of-range panic, modelled as `none`. -/
def validURL (u : String) : Option Bool :=
  match u.data with
  | [] => none
  | c :: _ => some (c == '/')

/-- Outcome of the line-accumulation loop of `ReadRequest`. -/
inductive LinesOut
  | lines (ls : List String)
  | err (e : TErr)
  | starve
deriving DecidableEq, Repr

/-- The line-accumulation loop of `ReadRequest` (request.go lines 47-53).  The
loop condition `temp_line != ""` is evaluated before the error check inside
the body, so an error delivered together with an empty line makes the loop
exit normally and the error is dropped.  `.starve` marks the model running
out of scripted `ReadLine` outcomes (not a program behaviour). -/
def readLines : List LineRes → LinesOut
  | [] => .starve
  | r :: rest =>
    if r.line = "" then .lines []
    else
      match r.err with
      | some e => .err e
      | none =>
        match readLines rest with
        | .lines ls => .lines (r.line :: ls)
        | o => o

/-- State of the header loop of `ReadRequest` (headerMap, req.Host, req.Close,
haveHost). -/
structure HState where
  map : List (String × String)
  host : String
  close : Bool
  haveHost : Bool
deriving DecidableEq, Repr

/-- Go map assignment `m[k] = v` on an association list. -/
def mapInsert (m : List (String × String)) (k v : String) : List (String × String) :=
  if m.any fun p => p.1 == k then
    m.map fun p => if p.1 == k then (k, v) else p
  else m ++ [(k, v)]

/-- One step of the header loop of `ReadRequest` (request.go lines 93-102). -/
def routeOne (st : HState) (kv : String × String) : HState :=
  if kv.1 = "Host" then { st with host := kv.2, haveHost := true }
  else if kv.1 = "Connection" then
    if kv.2 = "close" then { st with close := true } else st
  else { st with map := mapInsert st.map kv.1 kv.2 }

/-- The header loop of `ReadRequest` (request.go lines 85-103): parse each
header line, returning the first parse error, else route it. -/
def procHeaders : List String → HState → Except MalErr HState
  | [], st => .ok st
  | h :: hs, st =>
    match parseHeader h with
    | .error e => .error e
    | .ok kv => procHeaders hs (routeOne st kv)

/-- Failures of `ReadRequest`: a propagated transport error or a
malformed-request error. -/
inductive ReqErr
  | transport (e : TErr)
  | malformed (e : MalErr)
deriving DecidableEq, Repr

/-- Result of `ReadRequest`: `.panicked` models a Go runtime panic and
`.starve` the model running out of scripted outcomes. -/
inductive ReqOut
  | ok (req : Request)
  | fail (e : ReqErr)
  | panicked
  | starve
deriving DecidableEq, Repr

/-- `ReadRequest` after the line loop (request.go lines 61-112): start-line
parse, method/URL/proto validation, header loop, Host presence check. -/
def parseArr : List String → ReqOut
  | [] => .starve
  | l0 :: hdrs =>
    match parseStartLine l0 with
    | none => .fail (.malformed .badStartLine)
    | some (m, u, p) =>
      if !validMethod m then .fail (.malformed .badMethod)
      else
        match validURL u with
        | none => .panicked
        | some false => .fail (.malformed .badURL)
        | some true =>
          if !validProto p then .fail (.malformed .badProto)
          else
            match procHeaders hdrs ⟨[], "", false, false⟩ with
            | .error e => .fail (.malformed e)
            | .ok st =>
              if st.haveHost then .ok ⟨m, u, p, st.map, st.host, st.close⟩
              else .fail (.malformed .missingHost)

/-- Empty-line marker of `ReadRequest` (request.go lines 56-59) followed by
`parseArr`. -/
def parseLinesToReq (ls : List String) : ReqOut :=
  parseArr (if ls.isEmpty then ["Empty bad request"] else ls)

/-- `ReadRequest` (request.go lines 33-113): peek one byte (its failure is the
only case with `bytesReceived = false`), run the line loop, then parse.  The
second component is `bytesReceived`. -/
def ReadRequest (peek : Option TErr) (stream : List LineRes) : ReqOut × Bool :=
  match peek with
  | some e => (.fail (.transport e), false)
  | none =>
    match readLines stream with
    | .starve => (.starve, true)
    | .err e => (.fail (.transport e), true)
    | .lines ls => (parseLinesToReq ls, true)

/-- `statusText` from response.go (Go map lookup, `""` when absent). -/
def statusText (c : Nat) : String :=
  if c = 200 then "OK"
  else if c = 400 then "Bad Request"
  else if c = 404 then "Not Found"
  else ""

/-- `Response` from response.go. -/
structure Response where
  statusCode : Nat
  proto : String
  header : List (String × String)
  request : Option Request
  filePath : String
deriving DecidableEq, Repr

/-- Segment processing of Go `path.Clean`, accumulator reversed. -/
def cleanRev (rooted : Bool) : List String → List String → List String
  | acc, [] => acc
  | acc, s :: rest =>
    if s = "" || s = "." then cleanRev rooted acc rest
    else if s = ".." then
      match acc with
      | [] => cleanRev rooted (if rooted then [] else [".."]) rest
      | a :: tl =>
        if a = ".." then cleanRev rooted (".." :: a :: tl) rest
        else cleanRev rooted tl rest
    else cleanRev rooted (s :: acc) rest

/-- Go `filepath.Clean` with separator `/` (as on the target platform):
resolve `.` and `..` segments and drop redundant separators. -/
def filepathClean (s : String) : String :=
  if s = "" then "."
  else
    let rooted := s.data.head? == some '/'
    let out := (cleanRev rooted [] (strSplit '/' s)).reverse
    if rooted then (if out.isEmpty then "/" else "/" ++ joinSep '/' out)
    else (if out.isEmpty then "." else joinSep '/' out)

/-- Routing outcome of `HandleGoodRequest`: serve the file at a path, not
found, or a runtime panic. -/
inductive RouteOut
  | okPath (p : String)
  | notFound
  | panicked
deriving DecidableEq, Repr

/-- The containment loop of `HandleGoodRequest` (response.go lines 278-283):
iterate over the segments of the raw doc root, indexing the split cleaned
path at each position.  `none` models the index-out-of-range panic reached
when the cleaned path has fewer segments than the doc root and all of them
matched. -/
def segCheck : List String → List String → Option Bool
  | _, [] => some true
  | [], _ :: _ => none
  | u :: us, r :: rs => if u = r then segCheck us rs else some false

def relDiffAux : List String → List String → Bool
  | [], _ => false
  | b :: _, [] => b == ".."
  | b :: bs, t :: ts => if b = t then relDiffAux bs ts else b == ".."

/-- Error condition of Go `filepath.Rel(base, targ)` for an already clean
`targ` on a volume-less filesystem: differing rootedness, or a `..` as the
first non-shared base segment. -/
def relErr (basep targ : String) : Bool :=
  let base := filepathClean basep
  if base = targ then false
  else
    let b := if base = "." then "" else base
    if (b.data.head? == some '/') != (targ.data.head? == some '/') then true
    else relDiffAux (if b = "" then [] else strSplit '/' b) (strSplit '/' targ)

/-- `HandleGoodRequest` (response.go lines 265-303): append `index.html` to a
trailing-slash URL, join with the doc root, canonicalize, run the
segment-containment loop, the `filepath.Rel` check, then the existence
check.  The filesystem is abstracted as `pathExists`. -/
def HandleGoodRequest (docRoot : String) (pathExists : String → Bool) (url : String) :
    RouteOut :=
  match url.data.getLast? with
  | none => .panicked
  | some lastc =>
    let requrl := if lastc = '/' then url ++ "index.html" else url
    let path := filepathClean (docRoot ++ requrl)
    match segCheck (strSplit '/' path) (strSplit '/' docRoot) with
    | none => .panicked
    | some false => .notFound
    | some true =>
      if relErr docRoot path then .notFound
      else if pathExists path then .okPath path else .notFound

/-- Modelled from the spec: the collaborators excluded from the core (spec
sections 1 and 6) — filesystem stat/existence, clock, MIME classifier — are
abstracted as an environment of uninterpreted total functions. -/
structure Env where
  pathExists : String → Bool
  statSize : String → Nat
  statModTime : String → String
  now : String
  mime : String → String

/-- `HandleOK` (response.go lines 307-330).  `none` models the
index-out-of-range panic of `strings.SplitN(path, ".", 2)[1]` on a path that
contains no dot. -/
def HandleOK (req : Request) (path : String) (env : Env) : Option Response :=
  match goSplitN '.' path 2 with
  | _ :: ext1 :: _ =>
    some
      { statusCode := 200
        proto := responseProto
        header :=
          [("Content-Type", env.mime ("." ++ ext1)), ("Date", env.now),
           ("Content-Length", toString (env.statSize path)),
           ("Last-Modified", env.statModTime path)] ++
          (if req.close then [("Connection", "close")] else [])
        request := some req
        filePath := path }
  | _ => none

/-- `HandleNotFound` (response.go lines 334-348). -/
def HandleNotFound (req : Request) (now : String) : Response :=
  { statusCode := 404
    proto := responseProto
    header := [("Date", now)] ++ (if req.close then [("Connection", "close")] else [])
    request := some req
    filePath := "" }

/-- `HandleBadRequest` (response.go lines 352-362). -/
def HandleBadRequest (now : String) : Response :=
  { statusCode := 400
    proto := responseProto
    header := [("Connection", "close"), ("Date", now)]
    request := none
    filePath := "" }

/-- `HandleBadRequestTimeOut` (response.go lines 364-374). -/
def HandleBadRequestTimeOut (now : String) : Response :=
  { statusCode := 400
    proto := responseProto
    header := [("Connection", "close"), ("Date", now)]
    request := none
    filePath := "" }

/-- Serving one valid request: route it, then build the 200 or 404 response.
`none` models a Go runtime panic inside routing or `HandleOK`. -/
def serveReq (docRoot : String) (env : Env) (req : Request) : Option Response :=
  match HandleGoodRequest docRoot env.pathExists req.url with
  | .panicked => none
  | .notFound => some (HandleNotFound req env.now)
  | .okPath p => HandleOK req p env

/-- `WriteStatusLine` (response.go lines 51-63): the bytes of the status line. -/
def WriteStatusLine (res : Response) : String :=
  res.proto ++ " " ++ toString res.statusCode ++ " " ++ statusText res.statusCode ++ "\r\n"

def hdrLookup (res : Response) (k : String) : Option String :=
  (res.header.find? fun p => p.1 == k).map Prod.snd

def hdrVal (res : Response) (k : String) : String := (hdrLookup res k).getD ""

/-- The keys of the response headers, sorted as by Go `sort.Strings`
(UTF-8 byte order coincides with code-point order). -/
def sortedKeys (res : Response) : List String :=
  List.insertionSort (fun a b => a ≤ b) (res.header.map Prod.fst)

/-- `WriteSortedHeaders` (response.go lines 69-92): the bytes of the header
section, one `KEY: VALUE\r\n` line per sorted key, then a blank line. -/
def WriteSortedHeaders (res : Response) : String :=
  String.join ((sortedKeys res).map fun k => k ++ ": " ++ hdrVal res k ++ "\r\n") ++ "\r\n"

/-- `WriteBody` (response.go lines 96-115) as chunks: nothing when there is no
file to serve, else the file's bytes; a failing `os.ReadFile` contributes
nothing (and is an error). -/
def bodyChunks (res : Response) (fc : String → Option String) : List String :=
  if res.filePath = "" then []
  else
    match fc res.filePath with
    | some b => [b]
    | none => []

/-- `Response.Write` (response.go lines 36-47): the three sections are
attempted in order against a sink that may refuse a chunk (`accept c = false`
models a failing write) and a file reader that may fail (`fc path = none`);
either failure aborts the remaining sections.  Returns the chunks delivered
in order and whether every section succeeded. -/
def ResponseWrite (res : Response) (fc : String → Option String) (accept : String → Bool) :
    List String × Bool :=
  if !accept (WriteStatusLine res) then ([], false)
  else if !accept (WriteSortedHeaders res) then ([WriteStatusLine res], false)
  else if res.filePath = "" then ([WriteStatusLine res, WriteSortedHeaders res], true)
  else
    match fc res.filePath with
    | none => ([WriteStatusLine res, WriteSortedHeaders res], false)
    | some b =>
      if accept b then ([WriteStatusLine res, WriteSortedHeaders res, b], true)
      else ([WriteStatusLine res, WriteSortedHeaders res], false)

/-- Observable events of one connection: the read deadline being (re-)armed,
a response being written, and the socket being closed. -/
inductive ConnEv
  | armDeadline
  | wrote (res : Response)
  | closed
deriving DecidableEq, Repr

/-- `HandleConnection` (response.go lines 199-261) as an event trace.  Each
loop iteration consumes one scripted `(peek outcome, ReadLine outcomes)`
pair.  EOF closes silently; a timeout closes silently when no byte was
received and answers 400 then closes when one was; any other error answers
400 then closes; a good request is served and the connection closes exactly
when the request asked to.  A panic (or exhausting the script) ends the
trace without a close. -/
def connStep (docRoot : String) (env : Env) (ro : ReqOut × Bool) (cont : List ConnEv) :
    List ConnEv :=
  match ro with
  | (.starve, _) => []
  | (.panicked, _) => []
  | (.fail (.transport .eof), _) => [.closed]
  | (.fail (.transport .timeout), false) => [.closed]
  | (.fail (.transport .timeout), true) =>
    [.wrote (HandleBadRequestTimeOut env.now), .closed]
  | (.fail _, _) => [.wrote (HandleBadRequest env.now), .closed]
  | (.ok req, _) =>
    match serveReq docRoot env req with
    | none => []
    | some res => .wrote res :: (if req.close then [.closed] else cont)

def connTrace (docRoot : String) (env : Env) :
    List (Option TErr × List LineRes) → List ConnEv
  | [] => []
  | (pk, st) :: rest =>
    .armDeadline :: connStep docRoot env (ReadRequest pk st) (connTrace docRoot env rest)

/-- A concrete collaborator environment for evaluations: no path exists, every
stat is zero/empty, the clock reads `"now"`, every extension maps to
`text/plain`. -/
def envEmpty : Env :=
  ⟨fun _ => false, fun _ => 0, fun _ => "", "now", fun _ => "text/plain"⟩

/-- The suffix of `s` after its first dot (empty when there is no dot or when
nothing follows it). -/
def afterFirstDot (s : String) : String :=
  String.mk ((s.data.dropWhile (fun c => c != '.')).tail)

/-! Theorems. -/

/-- C1: the claim that every URL whose canonical joined path escapes the
document root yields a 404 fails on the code.  With doc root `/var/www` and
URL `/..` the canonical joined path is `/var` — outside the root — yet the
containment loop of `HandleGoodRequest` indexes the split path past its end,
a Go index-out-of-range runtime panic (modelled `.panicked`), instead of
producing the not-found outcome. -/
theorem c1_containment_escape_panics :
    HandleGoodRequest "/var/www" (fun _ => false) "/.." = .panicked ∧
    filepathClean ("/var/www" ++ "/..") = "/var" := by
  constructor <;> decide

/-- C2: the claim that a deadline expiry after one or more bytes of a partial
request always produces exactly one 400 with `Connection: close` fails on the
code.  A connection that sends `GET / HTTP/1.1 CRLF Host: x CRLF` and then
stalls past the deadline hits the timeout at a line boundary; the line loop
of `ReadRequest` swallows the error, the partial request is served as a valid
one (here a 404), and the next iteration times out with zero bytes and closes
silently — no 400 is ever written. -/
theorem c2_partial_timeout_served_not_400 :
    connTrace "/r" envEmpty
        [(none, [⟨"GET / HTTP/1.1", none⟩, ⟨"Host: x", none⟩, ⟨"", some .timeout⟩]),
         (some .timeout, [])] =
      [.armDeadline,
       .wrote ⟨404, "HTTP/1.1", [("Date", "now")],
         some ⟨"GET", "/", "HTTP/1.1", [], "x", false⟩, ""⟩,
       .armDeadline, .closed] := by
  decide

/-- C3: the claim that `ReadRequest` succeeds only after actually reading the
empty-line terminator, and never converts a transport error into a success,
fails on the code.  When `ReadLine` reports a transport error together with
an empty line (a timeout or EOF arriving exactly at a line boundary), the
loop condition `temp_line != ""` exits the loop before the error check, the
error is dropped, and the accumulated partial request parses successfully. -/
theorem c3_transport_error_swallowed :
    ReadRequest none [⟨"GET / HTTP/1.1", none⟩, ⟨"Host: x", none⟩, ⟨"", some .timeout⟩] =
      (.ok ⟨"GET", "/", "HTTP/1.1", [], "x", false⟩, true) := by
  decide

/-- C4: the claim that every start line without exactly three non-degenerate
space-separated fields is rejected as malformed fails on the code for the
very case the claim names: two consecutive spaces after a valid method.
`strings.SplitN` yields an empty URL field, and `validURL` indexes `URL[0]`
on the empty string — a runtime panic, not a malformed-request failure. -/
theorem c4_empty_url_field_panics :
    ReadRequest none [⟨"GET  /a HTTP/1.1", none⟩, ⟨"", none⟩] = (.panicked, true) ∧
    goSplitN ' ' "GET  /a HTTP/1.1" 3 = ["GET", "", "/a HTTP/1.1"] := by
  constructor <;> decide

/-- C5: every 200 response built by `HandleOK` carries the four required
headers Date, Last-Modified, Content-Type and Content-Length; 404 and 400
responses carry an empty file path (no body reference); and both 400
constructors always carry `Connection: close`. -/
theorem c5_response_header_invariants (req : Request) (path : String) (env : Env)
    (n1 n2 n3 : String) :
    (match HandleOK req path env with
     | some res =>
       res.statusCode = 200 ∧ (hdrLookup res "Date").isSome = true ∧
         (hdrLookup res "Last-Modified").isSome = true ∧
         (hdrLookup res "Content-Type").isSome = true ∧
         (hdrLookup res "Content-Length").isSome = true
     | none => True) ∧
    (HandleNotFound req n1).statusCode = 404 ∧ (HandleNotFound req n1).filePath = "" ∧
    (HandleBadRequest n2).statusCode = 400 ∧ (HandleBadRequest n2).filePath = "" ∧
    hdrLookup (HandleBadRequest n2) "Connection" = some "close" ∧
    (HandleBadRequestTimeOut n3).statusCode = 400 ∧
    (HandleBadRequestTimeOut n3).filePath = "" ∧
    hdrLookup (HandleBadRequestTimeOut n3) "Connection" = some "close" := by
  refine ⟨?_, rfl, rfl, rfl, rfl, ?_, rfl, rfl, ?_⟩
  · rcases hg : goSplitN '.' path 2 with _ | ⟨a, _ | ⟨b, t⟩⟩
    · simp [HandleOK, hg]
    · simp [HandleOK, hg]
    · by_cases hc : req.close <;> simp [HandleOK, hg, hdrLookup, hc]
  · simp [hdrLookup, HandleBadRequest]
  · simp [hdrLookup, HandleBadRequestTimeOut]

/-- C6: after writing the response of a successfully parsed request, the
connection closes exactly when the request's close flag was set, and
otherwise the loop continues with the next pipelined request; moreover every
loop iteration (every new request attempt) begins by re-arming the read
deadline. -/
theorem c6_close_iff_close_flag (docRoot : String) (env : Env) (pk : Option TErr)
    (st : List LineRes) (rest : List (Option TErr × List LineRes)) (req : Request)
    (res : Response) (b : Bool)
    (h1 : ReadRequest pk st = (.ok req, b)) (h2 : serveReq docRoot env req = some res) :
    connTrace docRoot env ((pk, st) :: rest) =
      .armDeadline :: .wrote res ::
        (if req.close then [.closed] else connTrace docRoot env rest) ∧
    ∀ j js, ∃ tl, connTrace docRoot env (j :: js) = .armDeadline :: tl := by
  constructor
  · simp only [connTrace, h1, connStep, h2]
  · rintro ⟨jp, jst⟩ js
    exact ⟨_, rfl⟩

/-- C6 witness: a pipelined script whose single request carries
`Connection: close`; the trace is write-then-close. -/
theorem c6_close_iff_close_flag_wit :
    connTrace "/r" envEmpty
        [(none,
          [⟨"GET / HTTP/1.1", none⟩, ⟨"Connection: close", none⟩, ⟨"Host: x", none⟩,
           ⟨"", none⟩])] =
      [.armDeadline,
       .wrote (HandleNotFound ⟨"GET", "/", "HTTP/1.1", [], "x", true⟩ "now"), .closed] := by
  have h := c6_close_iff_close_flag "/r" envEmpty none
      [⟨"GET / HTTP/1.1", none⟩, ⟨"Connection: close", none⟩, ⟨"Host: x", none⟩, ⟨"", none⟩]
      [] ⟨"GET", "/", "HTTP/1.1", [], "x", true⟩
      (HandleNotFound ⟨"GET", "/", "HTTP/1.1", [], "x", true⟩ "now") true
      (by decide) (by decide)
  exact h.1.trans (by decide)

/-- C7: response serialization emits the status line, then the headers with
keys sorted lexicographically ascending, a blank line, then the body bytes;
the delivered chunks are always a prefix of those three sections in order (a
failing earlier section aborts the later ones), and a fully successful write
delivers exactly the three sections. -/
theorem c7_write_three_sections (res : Response) (fc : String → Option String)
    (accept : String → Bool) :
    List.Sorted (fun a b => a ≤ b) (sortedKeys res) ∧
    (sortedKeys res).Perm (res.header.map Prod.fst) ∧
    (∃ k, (ResponseWrite res fc accept).1 =
      ([WriteStatusLine res, WriteSortedHeaders res] ++ bodyChunks res fc).take k) ∧
    ((ResponseWrite res fc accept).2 = true →
      (ResponseWrite res fc accept).1 =
        [WriteStatusLine res, WriteSortedHeaders res] ++ bodyChunks res fc) := by
  have hS := List.sorted_insertionSort (α := String) (fun a b => a ≤ b) (res.header.map Prod.fst)
  have hP := List.perm_insertionSort (α := String) (fun a b => a ≤ b) (res.header.map Prod.fst)
  by_cases h1 : accept (WriteStatusLine res)
  · by_cases h2 : accept (WriteSortedHeaders res)
    · by_cases h3 : res.filePath = ""
      · refine ⟨hS, hP, ⟨2, ?_⟩, fun _ => ?_⟩ <;> simp [ResponseWrite, bodyChunks, h1, h2, h3]
      · rcases hfc : fc res.filePath with _ | bdy
        · refine ⟨hS, hP, ⟨2, ?_⟩, fun hok => absurd hok ?_⟩ <;>
            simp [ResponseWrite, bodyChunks, h1, h2, h3, hfc]
        · by_cases h4 : accept bdy
          · refine ⟨hS, hP, ⟨3, ?_⟩, fun _ => ?_⟩ <;>
              simp [ResponseWrite, bodyChunks, h1, h2, h3, hfc, h4]
          · refine ⟨hS, hP, ⟨2, ?_⟩, fun hok => absurd hok ?_⟩ <;>
              simp [ResponseWrite, bodyChunks, h1, h2, h3, hfc, h4]
    · refine ⟨hS, hP, ⟨1, ?_⟩, fun hok => absurd hok ?_⟩ <;> simp [ResponseWrite, h1, h2]
  · refine ⟨hS, hP, ⟨0, ?_⟩, fun hok => absurd hok ?_⟩ <;> simp [ResponseWrite, h1]

/-- C7 witness: a bodyless 404 response against an always-accepting sink is
delivered as exactly the status-line and header sections. -/
theorem c7_write_three_sections_wit :
    (ResponseWrite ⟨404, "HTTP/1.1", [("Date", "d"), ("Connection", "close")], none, ""⟩
        (fun _ => none) (fun _ => true)).1 =
      [WriteStatusLine ⟨404, "HTTP/1.1", [("Date", "d"), ("Connection", "close")], none, ""⟩,
       WriteSortedHeaders ⟨404, "HTTP/1.1", [("Date", "d"), ("Connection", "close")], none, ""⟩] ++
        bodyChunks ⟨404, "HTTP/1.1", [("Date", "d"), ("Connection", "close")], none, ""⟩
          (fun _ => none) :=
  (c7_write_three_sections _ _ _).2.2.2 (by decide)

/-! Helper lemmas about the header loop, shared by the header-routing and
missing-host theorems. -/

lemma procHeaders_append (a b : List String) (st : HState) :
    procHeaders (a ++ b) st =
      match procHeaders a st with
      | .ok st1 => procHeaders b st1
      | .error e => .error e := by
  induction a generalizing st with
  | nil => simp [procHeaders]
  | cons h t ih =>
    simp only [List.cons_append, procHeaders]
    cases parseHeader h with
    | error e => rfl
    | ok kv => exact ih _

lemma routeOne_close (st : HState) (kv : String × String) :
    (routeOne st kv).close = true ↔
      st.close = true ∨ (kv.1 = "Connection" ∧ kv.2 = "close") := by
  unfold routeOne
  by_cases h1 : kv.1 = "Host"
  · simp [h1]
  · by_cases h2 : kv.1 = "Connection"
    · by_cases h3 : kv.2 = "close" <;> simp [h1, h2, h3]
    · simp [h1, h2]

lemma routeOne_host_other (st : HState) (kv : String × String) (h : kv.1 ≠ "Host") :
    (routeOne st kv).host = st.host ∧ (routeOne st kv).haveHost = st.haveHost := by
  unfold routeOne
  by_cases h2 : kv.1 = "Connection"
  · by_cases h3 : kv.2 = "close" <;> simp [h, h2, h3]
  · simp [h, h2]

lemma procHeaders_close (hs : List String) (st st' : HState)
    (h : procHeaders hs st = .ok st') :
    (st'.close = true ↔
      st.close = true ∨ ∃ l ∈ hs, parseHeader l = .ok ("Connection", "close")) := by
  induction hs generalizing st with
  | nil =>
    simp only [procHeaders, Except.ok.injEq] at h
    subst h; simp
  | cons l t ih =>
    simp only [procHeaders] at h
    cases hp : parseHeader l with
    | error e => rw [hp] at h; exact absurd h (by simp)
    | ok kv =>
      rw [hp] at h
      rw [ih _ h, routeOne_close]
      constructor
      · rintro ((hc | ⟨hk1, hk2⟩) | ⟨l2, hl2, hph⟩)
        · exact .inl hc
        · refine .inr ⟨l, by simp, ?_⟩
          rw [hp]
          obtain ⟨k, v⟩ := kv
          simp only at hk1 hk2
          rw [hk1, hk2]
        · exact .inr ⟨l2, by simp [hl2], hph⟩
      · rintro (hc | ⟨l2, hl2, hph⟩)
        · exact .inl (.inl hc)
        · rcases List.mem_cons.mp hl2 with rfl | hmem
          · rw [hp] at hph
            simp only [Except.ok.injEq] at hph
            subst hph
            exact .inl (.inr ⟨rfl, rfl⟩)
          · exact .inr ⟨l2, hmem, hph⟩

lemma mem_keys_mapInsert (m : List (String × String)) (k v k' : String) (h : k' ≠ k) :
    (k' ∈ (mapInsert m k v).map Prod.fst ↔ k' ∈ m.map Prod.fst) := by
  unfold mapInsert
  split
  · simp only [List.map_map, List.mem_map, Function.comp]
    constructor
    · rintro ⟨p, hp, hpe⟩
      by_cases hpk : p.1 == k
      · rw [if_pos hpk] at hpe
        exact absurd hpe.symm h
      · rw [if_neg hpk] at hpe
        exact ⟨p, hp, hpe⟩
    · rintro ⟨p, hp, hpe⟩
      refine ⟨p, hp, ?_⟩
      have hpk : (p.1 == k) = false := by
        rw [beq_eq_false_iff_ne]
        rw [hpe]; exact h
      rw [if_neg (by simp [hpk])]
      exact hpe
  · simp [h]

lemma procHeaders_keys (hs : List String) (st st' : HState) (k' : String)
    (hk : k' = "Host" ∨ k' = "Connection")
    (h : procHeaders hs st = .ok st') (h0 : k' ∉ st.map.map Prod.fst) :
    k' ∉ st'.map.map Prod.fst := by
  induction hs generalizing st with
  | nil =>
    simp only [procHeaders, Except.ok.injEq] at h
    subst h; exact h0
  | cons l t ih =>
    simp only [procHeaders] at h
    cases hp : parseHeader l with
    | error e => rw [hp] at h; exact absurd h (by simp)
    | ok kv =>
      rw [hp] at h
      refine ih _ h ?_
      unfold routeOne
      by_cases h1 : kv.1 = "Host"
      · simpa [h1] using h0
      · by_cases h2 : kv.1 = "Connection"
        · by_cases h3 : kv.2 = "close" <;> simpa [h1, h2, h3] using h0
        · have hne : k' ≠ kv.1 := by
            rcases hk with rfl | rfl
            · exact fun he => h1 he.symm
            · exact fun he => h2 he.symm
          rw [if_neg h1, if_neg h2]
          simpa [mem_keys_mapInsert st.map kv.1 kv.2 k' hne] using h0

lemma procHeaders_no_host (hs : List String) (st st' : HState)
    (h : procHeaders hs st = .ok st')
    (hn : ∀ l ∈ hs, ∀ v, parseHeader l ≠ .ok ("Host", v)) :
    st'.host = st.host ∧ st'.haveHost = st.haveHost := by
  induction hs generalizing st with
  | nil =>
    simp only [procHeaders, Except.ok.injEq] at h
    subst h; exact ⟨rfl, rfl⟩
  | cons l t ih =>
    simp only [procHeaders] at h
    cases hp : parseHeader l with
    | error e => rw [hp] at h; exact absurd h (by simp)
    | ok kv =>
      rw [hp] at h
      have ht := ih _ h (fun l2 hl2 v => hn l2 (by simp [hl2]) v)
      have hkv : kv.1 ≠ "Host" := by
        intro he
        refine hn l (by simp) kv.2 ?_
        rw [hp]
        obtain ⟨k, v⟩ := kv
        simp only at he
        rw [he]
      have hr := routeOne_host_other st kv hkv
      exact ⟨ht.1.trans hr.1, ht.2.trans hr.2⟩

lemma procHeaders_last_host (hs1 hs2 : List String) (l : String) (v : String) (st st' : HState)
    (h : procHeaders (hs1 ++ l :: hs2) st = .ok st')
    (hl : parseHeader l = .ok ("Host", v))
    (hn : ∀ l2 ∈ hs2, ∀ v2, parseHeader l2 ≠ .ok ("Host", v2)) :
    st'.host = v ∧ st'.haveHost = true := by
  rw [procHeaders_append] at h
  cases h1 : procHeaders hs1 st with
  | error e => rw [h1] at h; exact absurd h (by simp)
  | ok st1 =>
    rw [h1] at h
    simp only [procHeaders, hl] at h
    have hres := procHeaders_no_host hs2 _ _ h hn
    rw [hres.1, hres.2]
    constructor <;> simp [routeOne]

lemma procHeaders_ok_no_host (hs : List String) (st : HState)
    (hp : ∀ l ∈ hs, ∃ k v, parseHeader l = .ok (k, v) ∧ k ≠ "Host") :
    ∃ st', procHeaders hs st = .ok st' ∧ st'.haveHost = st.haveHost := by
  induction hs generalizing st with
  | nil => exact ⟨st, rfl, rfl⟩
  | cons l t ih =>
    obtain ⟨k, v, hkv, hk⟩ := hp l (by simp)
    obtain ⟨st', h1, h2⟩ := ih (routeOne st (k, v)) (fun l2 hl2 => hp l2 (by simp [hl2]))
    refine ⟨st', ?_, ?_⟩
    · simp only [procHeaders, hkv]
      exact h1
    · rw [h2]
      exact (routeOne_host_other st (k, v) hk).2

/-- C8: for every successfully parsed request, the close flag is set iff some
header line parsed to canonical key `Connection` with value exactly `close`;
the value of the last `Host` header line is what the dedicated host field
stores; and neither a `Host` nor a `Connection` key appears in the generic
header mapping. -/
theorem c8_special_header_routing (stream : List LineRes) (l0 : String) (hs : List String)
    (req : Request)
    (h1 : readLines stream = .lines (l0 :: hs))
    (h2 : ReadRequest none stream = (.ok req, true)) :
    (req.close = true ↔ ∃ l ∈ hs, parseHeader l = .ok ("Connection", "close")) ∧
    "Host" ∉ req.header.map Prod.fst ∧
    "Connection" ∉ req.header.map Prod.fst ∧
    (∀ hs1 l hs2 v, hs = hs1 ++ l :: hs2 → parseHeader l = .ok ("Host", v) →
      (∀ l2 ∈ hs2, ∀ v2, parseHeader l2 ≠ .ok ("Host", v2)) → req.host = v) := by
  simp only [ReadRequest, h1, Prod.mk.injEq, and_true] at h2
  rw [parseLinesToReq, if_neg (by simp)] at h2
  simp only [parseArr] at h2
  rcases hps : parseStartLine l0 with _ | ⟨m, u, p⟩ <;> rw [hps] at h2 <;>
    simp only [] at h2
  · exact absurd h2 (by simp)
  · split at h2
    · exact absurd h2 (by simp)
    · rcases hvu : validURL u with _ | b
      · rw [hvu] at h2
        simp only [] at h2
        exact absurd h2 (by simp)
      · rcases b with _ | _ <;> rw [hvu] at h2 <;> simp only [] at h2
        · exact absurd h2 (by simp)
        · split at h2
          · exact absurd h2 (by simp)
          · rcases hph : procHeaders hs ⟨[], "", false, false⟩ with e | st <;>
              rw [hph] at h2 <;> simp only [] at h2
            · exact absurd h2 (by simp)
            · split at h2
              · simp only [ReqOut.ok.injEq] at h2
                subst h2
                refine ⟨?_, ?_, ?_, ?_⟩
                · rw [show (Request.mk m u p st.map st.host st.close).close = st.close from rfl]
                  rw [procHeaders_close hs _ _ hph]
                  simp
                · exact procHeaders_keys hs _ _ "Host" (.inl rfl) hph (by simp)
                · exact procHeaders_keys hs _ _ "Connection" (.inr rfl) hph (by simp)
                · intro hs1 l hs2 v hdec hl hn
                  subst hdec
                  exact (procHeaders_last_host hs1 hs2 l v _ _ hph hl hn).1
              · exact absurd h2 (by simp)

/-- C8 witness: a concrete request with `Connection: close` before its Host
header; applying the theorem shows the close flag implies such a header line
exists. -/
theorem c8_special_header_routing_wit :
    ∃ l ∈ ["Connection: close", "Host: h", "X-A: 1"],
      parseHeader l = .ok ("Connection", "close") := by
  have h := c8_special_header_routing
      [⟨"GET / HTTP/1.1", none⟩, ⟨"Connection: close", none⟩, ⟨"Host: h", none⟩,
       ⟨"X-A: 1", none⟩, ⟨"", none⟩]
      "GET / HTTP/1.1" ["Connection: close", "Host: h", "X-A: 1"]
      ⟨"GET", "/", "HTTP/1.1", [("X-A", "1")], "h", true⟩ (by decide) (by decide)
  exact h.1.mp rfl

/-- C9: a request whose start line is valid and whose header lines all parse
but none of which is a `Host` header fails as the malformed-request error
`Missing Host.`. -/
theorem c9_missing_host_malformed (stream : List LineRes) (l0 : String) (hs : List String)
    (m u p : String)
    (h1 : readLines stream = .lines (l0 :: hs))
    (h2 : parseStartLine l0 = some (m, u, p))
    (h3 : validMethod m = true) (h4 : validURL u = some true) (h5 : validProto p = true)
    (h6 : ∀ l ∈ hs, ∃ k v, parseHeader l = .ok (k, v) ∧ k ≠ "Host") :
    ReadRequest none stream = (.fail (.malformed .missingHost), true) := by
  obtain ⟨st', hok, hh⟩ := procHeaders_ok_no_host hs ⟨[], "", false, false⟩ h6
  have hh' : st'.haveHost = false := hh
  simp [ReadRequest, h1, parseLinesToReq, parseArr, h2, h3, h4, h5, hok, hh']

/-- C9 witness: a syntactically valid request with a single non-Host header
is rejected with the missing-host malformed error. -/
theorem c9_missing_host_malformed_wit :
    ReadRequest none [⟨"GET / HTTP/1.1", none⟩, ⟨"A: b", none⟩, ⟨"", none⟩] =
      (.fail (.malformed .missingHost), true) := by
  refine c9_missing_host_malformed _ "GET / HTTP/1.1" ["A: b"] "GET" "/" "HTTP/1.1"
      (by decide) (by decide) (by decide) (by decide) (by decide) ?_
  intro l hl
  have hl' : l = "A: b" := by simpa using hl
  subst hl'
  exact ⟨"A", "b", rfl, by decide⟩

/-! Helper lemmas about single-character splitting, used for the
content-type/extension theorem. -/

lemma splitCh_ne_nil (sep : Char) (cs : List Char) : splitCh sep cs ≠ [] := by
  induction cs with
  | nil => simp [splitCh]
  | cons c rest ih =>
    rw [splitCh]
    by_cases h : c = sep
    · simp [h]
    · rw [if_neg h]
      rcases hs : splitCh sep rest with _ | ⟨g, gs⟩
      · simp
      · simp

lemma splitCh_no_sep (sep : Char) (cs : List Char)
    (h : cs.any (fun c => c == sep) = false) : splitCh sep cs = [cs] := by
  induction cs with
  | nil => rfl
  | cons c rest ih =>
    simp only [List.any_cons, Bool.or_eq_false_iff, beq_eq_false_iff_ne] at h
    rw [splitCh, if_neg h.1, ih (by simpa using h.2)]

lemma splitCh_with_sep (sep : Char) (cs : List Char)
    (h : cs.any (fun c => c == sep) = true) :
    splitCh sep cs =
      cs.takeWhile (fun c => c != sep) ::
        splitCh sep ((cs.dropWhile (fun c => c != sep)).tail) := by
  induction cs with
  | nil => simp at h
  | cons c rest ih =>
    by_cases hc : c = sep
    · subst hc
      rw [splitCh, if_pos rfl]
      simp [List.takeWhile_cons, List.dropWhile_cons]
    · have hr : rest.any (fun c => c == sep) = true := by
        simp only [List.any_cons, Bool.or_eq_true] at h
        rcases h with h | h
        · exact absurd (by simpa using h) hc
        · exact h
      rw [splitCh, if_neg hc, ih hr]
      simp [List.takeWhile_cons, List.dropWhile_cons, hc]

lemma mk_append (a b : List Char) : String.mk a ++ String.mk b = String.mk (a ++ b) := rfl

lemma joinSep_splitCh (sep : Char) (cs : List Char) :
    joinSep sep ((splitCh sep cs).map String.mk) = String.mk cs := by
  induction cs with
  | nil => rfl
  | cons c rest ih =>
    by_cases hc : c = sep
    · rw [splitCh, if_pos hc]
      rcases hs : splitCh sep rest with _ | ⟨g, gs⟩
      · exact absurd hs (splitCh_ne_nil _ _)
      · rw [hs] at ih
        simp only [List.map_cons, joinSep]
        simp only [List.map_cons] at ih
        rw [ih, hc]
        rfl
    · rw [splitCh, if_neg hc]
      rcases hs : splitCh sep rest with _ | ⟨g, gs⟩
      · exact absurd hs (splitCh_ne_nil _ _)
      · rw [hs] at ih
        rcases gs with _ | ⟨g2, gs2⟩
        · simp only [List.map_cons, List.map_nil, joinSep] at ih ⊢
          injection ih with ihd
          rw [ihd]
        · simp only [List.map_cons, joinSep] at ih ⊢
          have hJ : joinSep sep (String.mk g2 :: List.map String.mk gs2) =
              String.mk (joinSep sep (String.mk g2 :: List.map String.mk gs2)).data := rfl
          rw [hJ] at ih ⊢
          rw [mk_append, mk_append] at ih ⊢
          injection ih with ihd
          refine congrArg String.mk ?_
          rw [← ihd]
          simp

lemma goSplitN_two_no_sep (sep : Char) (s : String)
    (h : s.data.any (fun c => c == sep) = false) : goSplitN sep s 2 = [s] := by
  have he : String.mk s.data = s := rfl
  simp [goSplitN, strSplit, splitCh_no_sep sep s.data h, he]

lemma goSplitN_two_with_sep (sep : Char) (s : String)
    (h : s.data.any (fun c => c == sep) = true) :
    goSplitN sep s 2 =
      [String.mk (s.data.takeWhile (fun c => c != sep)),
       String.mk ((s.data.dropWhile (fun c => c != sep)).tail)] := by
  have hs := splitCh_with_sep sep s.data h
  simp only [goSplitN, strSplit]
  rw [hs]
  rcases hL : splitCh sep ((s.data.dropWhile (fun c => c != sep)).tail) with _ | ⟨x, xs⟩
  · exact absurd hL (splitCh_ne_nil _ _)
  · have hj := joinSep_splitCh sep ((s.data.dropWhile (fun c => c != sep)).tail)
    rw [hL] at hj
    rcases xs with _ | ⟨y, ys⟩
    · simp only [List.map_cons, List.map_nil, joinSep] at hj
      simp [hj]
    · simp only [List.map_cons, joinSep] at hj
      rw [if_neg (by simp only [List.map_cons, List.length_cons, List.length_map]; omega)]
      simp [joinSep, hj]

/-- C10: `HandleOK` computes the Content-Type from the part of the resolved
path after its first dot, and is only total on paths containing a dot: on a
dotless path the extension extraction indexes past the end of the
`strings.SplitN` result (modelled `none`), with no fallback content type. -/
theorem c10_content_type_from_first_dot (req : Request) (path : String) (env : Env) :
    (HandleOK req path env = none ↔ path.data.any (fun c => c == '.') = false) ∧
    (match HandleOK req path env with
     | some res => hdrLookup res "Content-Type" = some (env.mime ("." ++ afterFirstDot path))
     | none => True) := by
  by_cases h : path.data.any (fun c => c == '.') = true
  · have h2 := goSplitN_two_with_sep '.' path h
    constructor
    · simp only [HandleOK, h2]
      simp [h]
    · simp only [HandleOK, h2]
      simp [hdrLookup, afterFirstDot]
  · have hf : path.data.any (fun c => c == '.') = false := by
      rcases hx : path.data.any (fun c => c == '.') with _ | _
      · rfl
      · exact absurd hx h
    have h2 := goSplitN_two_no_sep '.' path hf
    constructor
    · simp [HandleOK, h2, hf]
    · simp [HandleOK, h2]

/-- C10 witness: an existing dotless path makes `HandleOK` hit the modelled
index-out-of-range panic. -/
theorem c10_content_type_from_first_dot_wit :
    HandleOK ⟨"GET", "/nodot", "HTTP/1.1", [], "x", false⟩ "r/nodot" envEmpty = none :=
  (c10_content_type_from_first_dot ⟨"GET", "/nodot", "HTTP/1.1", [], "x", false⟩
    "r/nodot" envEmpty).1.mpr (by decide)

end TritonHttp
